import Mathlib

/-!
Shallow embedding of the dnsbl-rs library (src/lib.rs): a DNS-based
blocklist (DNSBL) client.  Rust strings are modelled as `List Char`,
DNS names as lists of labels in presentation order, fallible
operations as `Except`, and the two DNS lookups of one check as a pure
function of an abstract resolver together with an explicit trace of
the queries issued.  The `trust_dns` name type (`Name::from_utf8`,
`Name::from_labels`, `Display`, the `IpAddr` to reverse-lookup-name
conversion) is an external dependency whose source is not part of this
repository; those operations are modelled from the spec, as marked in
their doc comments.  Everything else is translated directly from
src/lib.rs.
-/

/-- Rust strings (and DNS textual input) modelled as lists of characters. -/
abbrev RStr := List Char

/-- One DNS label, as a string of octets (characters). -/
abbrev DnsLabel := RStr

/-- A DNS name as an ordered sequence of labels in presentation order
(printed left-to-right, dot-separated), the representation of a
`trust_dns` `Name`. -/
abbrev NameLabels := List DnsLabel

/-- Error taxonomy of name construction (`trust_dns` `ProtoError` causes
named by the spec): `invalidName` for textual input that does not parse
into a valid DNS name, `nameTooLong` for a label sequence exceeding the
limits of a valid DNS name. -/
inductive RError
  | invalidName
  | nameTooLong
deriving DecidableEq

/-- Causes of a DNS lookup failure; the code never distinguishes them. -/
inductive LookupError
  | nxdomain
  | timeout
  | serverFailure
  | networkError
deriving DecidableEq

/-- Encoded (wire-format) length in octets of a label sequence: one
length octet per label plus the label's octets, plus the terminating
root octet. -/
def wireLen (n : NameLabels) : Nat :=
  1 + (n.map (fun l => 1 + l.length)).sum

/-- A single label is acceptable: nonempty and at most 63 octets. -/
def labelOk (l : DnsLabel) : Bool :=
  1 ≤ l.length && l.length ≤ 63

/-- Modelled from the spec: `trust_dns` `Name::from_utf8`, the validated
parser behind `Domain::new`.  The spec (section 3) requires labels of
1 to 63 octets, total encoded length at most 255 octets, constructed
only via validated parsing from dot-separated text, failing with
`InvalidNameError` on malformed input (empty label, label over 63
octets, name over 255 octets). -/
def DnsName.from_utf8 (s : RStr) : Except RError NameLabels :=
  let labels := s.splitOn '.'
  if labels.all labelOk && wireLen labels ≤ 255 then
    .ok labels
  else
    .error .invalidName

/-- Modelled from the spec: `trust_dns` `Name::from_labels`, used by
`check_domain` and `check_ip` to assemble the query name.  The spec
(section 4.1) has it fail with `NameTooLongError` when the concatenated
label sequence exceeds the 255-octet limit of a valid DNS name. -/
def DnsName.from_labels (ls : NameLabels) : Except RError NameLabels :=
  if wireLen ls ≤ 255 then .ok ls else .error .nameTooLong

/-- Modelled from the spec: the `Display` rendering of a name, its
labels printed left-to-right, dot-separated (section 3 and section 6:
standard dot-separated label text). -/
def DnsName.display (n : NameLabels) : RStr :=
  List.intercalate ['.'] n

/-- The `Domain` newtype of src/lib.rs wrapping a validated name. -/
structure Domain where
  labels : NameLabels
deriving DecidableEq

/-- `Domain::new`: parse text through the validated name parser. -/
def Domain.new (s : RStr) : Except RError Domain :=
  (DnsName.from_utf8 s).map Domain.mk

/-- The `Display` impl of `Domain`: delegates to the name's rendering. -/
def Domain.display (d : Domain) : RStr :=
  DnsName.display d.labels

/-- The `Serialize` impl of `Domain`: serializes `self.to_string()`. -/
def Domain.serialize (d : Domain) : RStr :=
  d.display

/-- The `Deserialize` impl of `Domain`: deserializes a string and feeds
it through `Domain::new`. -/
def Domain.deserialize (s : RStr) : Except RError Domain :=
  Domain.new s

/-- The `BlockList` alias of src/lib.rs. -/
abbrev BlockList := Domain

/-- An IP address, the input of `check_ip`: four octets for IPv4, or
the sequence of 32 nibbles (most-significant first) for IPv6. -/
inductive IpAddr
  | v4 (a b c d : Fin 256)
  | v6 (nibbles : List (Fin 16))

/-- Decimal text of an octet, as used for IPv4 reverse-lookup labels. -/
def decLabel (n : Nat) : DnsLabel :=
  Nat.toDigits 10 n

/-- Lower-case hexadecimal digit of a nibble, as used for IPv6
reverse-lookup labels. -/
def nibbleLabel (n : Fin 16) : DnsLabel :=
  Nat.toDigits 16 n.val

/-- Modelled from the spec: the `IpAddr` to `Name` conversion of
`trust_dns` (`ip_addr.into().into()` in `check_ip`), producing the
canonical reverse-lookup name (section 4.1): IPv4 gives the four octets
reversed as decimal labels suffixed `in-addr.arpa`; IPv6 gives the 32
nibbles reversed as hexadecimal labels suffixed `ip6.arpa`. -/
def reverseLookupName : IpAddr → NameLabels
  | .v4 a b c d =>
      [decLabel d.val, decLabel c.val, decLabel b.val, decLabel a.val,
       "in-addr".toList, "arpa".toList]
  | .v6 ns =>
      ns.reverse.map nibbleLabel ++ ["ip6".toList, "arpa".toList]

/-- The label count of a name (`Name::num_labels`). -/
def numLabels (n : NameLabels) : Nat :=
  n.length

/-- The label sequence `check_ip` feeds to `Name::from_labels`:
the reverse-lookup name's labels with the last two (the arpa suffix)
stripped by `take(num_labels - 2)`, chained with the zone's labels. -/
def checkIpLabels (ip : IpAddr) (list : BlockList) : NameLabels :=
  let ipName := reverseLookupName ip
  ipName.take (numLabels ipName - 2) ++ list.labels

/-- The label sequence `check_domain` feeds to `Name::from_labels`:
the candidate domain's labels chained with the zone's labels. -/
def checkDomainLabels (domain : Domain) (list : BlockList) : NameLabels :=
  domain.labels ++ list.labels

/-- UTF-8 decoding of a byte sequence, models Rust `String::from_utf8`:
`none` on any encoding error (stray continuation byte, truncated or
overlong sequence, surrogate, value beyond U+10FFFF), otherwise the
decoded character sequence. -/
def utf8Decode : List Nat → Option RStr
  | [] => some []
  | b0 :: bs =>
    if b0 < 0x80 then
      (utf8Decode bs).map (Char.ofNat b0 :: ·)
    else if b0 < 0xC2 then none
    else if b0 ≤ 0xDF then
      match bs with
      | b1 :: bs2 =>
        if 0x80 ≤ b1 && b1 ≤ 0xBF then
          (utf8Decode bs2).map (Char.ofNat ((b0 - 0xC0) * 0x40 + (b1 - 0x80)) :: ·)
        else none
      | [] => none
    else if b0 ≤ 0xEF then
      match bs with
      | b1 :: b2 :: bs3 =>
        let lo1 := if b0 = 0xE0 then 0xA0 else 0x80
        let hi1 := if b0 = 0xED then 0x9F else 0xBF
        if lo1 ≤ b1 && b1 ≤ hi1 && 0x80 ≤ b2 && b2 ≤ 0xBF then
          (utf8Decode bs3).map
            (Char.ofNat (((b0 - 0xE0) * 0x40 + (b1 - 0x80)) * 0x40 + (b2 - 0x80)) :: ·)
        else none
      | _ => none
    else if b0 ≤ 0xF4 then
      match bs with
      | b1 :: b2 :: b3 :: bs4 =>
        let lo1 := if b0 = 0xF0 then 0x90 else 0x80
        let hi1 := if b0 = 0xF4 then 0x8F else 0xBF
        if lo1 ≤ b1 && b1 ≤ hi1 && 0x80 ≤ b2 && b2 ≤ 0xBF && 0x80 ≤ b3 && b3 ≤ 0xBF then
          (utf8Decode bs4).map
            (Char.ofNat
              ((((b0 - 0xF0) * 0x40 + (b1 - 0x80)) * 0x40 + (b2 - 0x80)) * 0x40 + (b3 - 0x80)) :: ·)
        else none
      | _ => none
    else none


/-- One IPv4 address record returned by the resolver. -/
abbrev Ipv4Record := Fin 256 × Fin 256 × Fin 256 × Fin 256

/-- One TXT record: a sequence of byte chunks (rdata character-strings),
each iterated by the code as raw bytes. -/
abbrev TxtRecord := List (List Nat)

/-- The abstract resolver collaborator: the two lookups `check` issues,
each a pure function from the queried name to a result or a failure. -/
structure Resolver where
  ipv4_lookup : NameLabels → Except LookupError (List Ipv4Record)
  txt_lookup : NameLabels → Except LookupError (List TxtRecord)

/-- A DNS query issued against the resolver, recorded in the trace. -/
inductive Query
  | a (n : NameLabels)
  | txt (n : NameLabels)
deriving DecidableEq

/-- The result type of a check, as in src/lib.rs. -/
inductive BlockStatus
  | Blocked (message : Option RStr)
  | NotBlocked
deriving DecidableEq

/-- `DNSBL::check` from src/lib.rs, together with the trace of queries
issued: if the A lookup errors, `NotBlocked` after the single A query;
otherwise the TXT lookup runs, and on success the records' chunks are
UTF-8 decoded (empty string on decode failure), space-joined within
each record, the per-record strings space-joined, and the result is
`Blocked` with that message filtered to `none` when empty; on TXT
failure `Blocked` with no message. -/
def DNSBL.check (r : Resolver) (dns_name : NameLabels) : BlockStatus × List Query :=
  match r.ipv4_lookup dns_name with
  | .error _ => (.NotBlocked, [.a dns_name])
  | .ok _ =>
    match r.txt_lookup dns_name with
    | .ok txt =>
      let message : RStr :=
        List.intercalate [' ']
          (txt.map (fun i =>
            List.intercalate [' '] (i.map (fun j => (utf8Decode j).getD []))))
      (.Blocked (Option.filter (fun s => !s.isEmpty) (some message)),
       [.a dns_name, .txt dns_name])
    | .error _ => (.Blocked none, [.a dns_name, .txt dns_name])

/-- `DNSBL::check_domain`: build the query name from the candidate's
labels chained with the zone's labels, then run `check`.  The Rust code
unwraps `Name::from_labels` with `expect("always valid")`: the `.error`
case of this model is that panic, which aborts instead of returning. -/
def DNSBL.check_domain (r : Resolver) (list : BlockList) (domain : Domain) :
    Except RError (BlockStatus × List Query) :=
  (DnsName.from_labels (checkDomainLabels domain list)).map (DNSBL.check r)

/-- `DNSBL::check_ip`: build the query name from the address's
reverse-lookup labels (arpa suffix stripped) chained with the zone's
labels, then run `check`.  As in `check_domain`, the `.error` case
models the `expect("always valid")` panic. -/
def DNSBL.check_ip (r : Resolver) (list : BlockList) (ip : IpAddr) :
    Except RError (BlockStatus × List Query) :=
  (DnsName.from_labels (checkIpLabels ip list)).map (DNSBL.check r)

/-- The spec's decoding of one TXT chunk: UTF-8, substituting the empty
string for a chunk that fails decoding. -/
def specChunk (c : List Nat) : RStr :=
  (utf8Decode c).getD []

/-- The spec's per-record message: the record's decoded chunks joined
by single spaces. -/
def specRecordMessage (rec : TxtRecord) : RStr :=
  List.intercalate [' '] (rec.map specChunk)

/-- The spec's final joined message: the per-record strings joined by
single spaces. -/
def specMessage (recs : List TxtRecord) : RStr :=
  List.intercalate [' '] (recs.map specRecordMessage)

/-- A resolver whose A lookup fails: the candidate is not listed. -/
def errResolver : Resolver where
  ipv4_lookup := fun _ => .error .nxdomain
  txt_lookup := fun _ => .error .timeout

/-- A resolver whose A lookup succeeds and whose TXT lookup fails. -/
def okErrResolver : Resolver where
  ipv4_lookup := fun _ => .ok [((127 : Fin 256), (0 : Fin 256), (0 : Fin 256), (2 : Fin 256))]
  txt_lookup := fun _ => .error .serverFailure

/-- A resolver with both lookups succeeding; the TXT records decode to
the chunks "hi" and "yo" plus one empty chunk. -/
def okOkResolver : Resolver where
  ipv4_lookup := fun _ => .ok [((127 : Fin 256), (0 : Fin 256), (0 : Fin 256), (2 : Fin 256))]
  txt_lookup := fun _ => .ok [[[104, 105]], [[121, 111], []]]

/-- A resolver with both lookups succeeding where every TXT chunk is
empty or invalid UTF-8: one record with an empty chunk and one record
with the lone byte 0xFF (never valid UTF-8). -/
def twoEmptyResolver : Resolver where
  ipv4_lookup := fun _ => .ok [((127 : Fin 256), (0 : Fin 256), (0 : Fin 256), (2 : Fin 256))]
  txt_lookup := fun _ => .ok [[[]], [[0xFF]]]

/-- A maximal valid name: labels of 63, 63, 63 and 61 `a`s, whose
encoded length is exactly 255 octets. -/
def maxNameStr : RStr :=
  List.intercalate ['.']
    [List.replicate 63 'a', List.replicate 63 'a', List.replicate 63 'a', List.replicate 61 'a']

/-- The domain parsed from `maxNameStr`. -/
def maxDomain : Domain :=
  ⟨[List.replicate 63 'a', List.replicate 63 'a', List.replicate 63 'a', List.replicate 61 'a']⟩

deriving instance DecidableEq for Except

theorem intercalate_cons_cons (sep a b : List Char) (l : List (List Char)) :
    List.intercalate sep (a :: b :: l) = a ++ sep ++ List.intercalate sep (b :: l) := by
  simp [List.intercalate, List.intersperse]

theorem intercalate_singleton (sep a : List Char) :
    List.intercalate sep [a] = a := by
  simp [List.intercalate]

theorem intercalate_append_of_ne_nil (sep : List Char) (A B : List (List Char))
    (hA : A ≠ []) (hB : B ≠ []) :
    List.intercalate sep (A ++ B) =
      List.intercalate sep A ++ sep ++ List.intercalate sep B := by
  induction A with
  | nil => exact absurd rfl hA
  | cons a A ih =>
    cases A with
    | nil =>
      cases B with
      | nil => exact absurd rfl hB
      | cons b B => simp [intercalate_cons_cons, intercalate_singleton]
    | cons a2 A2 =>
      have ih2 := ih (by simp)
      simp only [List.cons_append] at ih2 ⊢
      rw [intercalate_cons_cons, ih2, intercalate_cons_cons]
      simp [List.append_assoc]

theorem splitOn_ne_nil_char (c : Char) (s : RStr) : s.splitOn c ≠ [] := by
  simp [List.splitOn]
  exact List.splitOnP_ne_nil _ s

theorem from_utf8_ok {s : RStr} {n : NameLabels} (h : DnsName.from_utf8 s = .ok n) :
    n = s.splitOn '.' ∧ (s.splitOn '.').all labelOk = true ∧
      wireLen (s.splitOn '.') ≤ 255 := by
  simp only [DnsName.from_utf8] at h
  split at h
  · rename_i hc
    simp_all
  · simp_all

theorem Domain.new_ok {s : RStr} {d : Domain} (h : Domain.new s = .ok d) :
    d.labels = s.splitOn '.' ∧ (s.splitOn '.').all labelOk = true ∧
      wireLen (s.splitOn '.') ≤ 255 := by
  unfold Domain.new at h
  cases hf : DnsName.from_utf8 s with
  | ok n =>
    rw [hf] at h
    simp [Except.map] at h
    obtain ⟨h1, h2, h3⟩ := from_utf8_ok hf
    exact ⟨by rw [← h, h1], h2, h3⟩
  | error e => rw [hf] at h; simp [Except.map] at h

theorem take_length_sub_two (l : List DnsLabel) :
    l.take (l.length - 2) = l.dropLast.dropLast := by
  rw [List.dropLast_eq_take, List.dropLast_eq_take, List.take_take, List.length_take]
  congr 1
  omega

theorem checkIpLabels_v4 (a b c d : Fin 256) (z : BlockList) :
    checkIpLabels (.v4 a b c d) z =
      [decLabel d.val, decLabel c.val, decLabel b.val, decLabel a.val] ++ z.labels := rfl

theorem checkIpLabels_v6 (ns : List (Fin 16)) (z : BlockList) :
    checkIpLabels (.v6 ns) z = ns.reverse.map nibbleLabel ++ z.labels := by
  rw [checkIpLabels, reverseLookupName, numLabels]
  have hlen : (ns.reverse.map nibbleLabel ++ ["ip6".toList, "arpa".toList]).length
      = (ns.reverse.map nibbleLabel).length + 2 := by simp
  rw [hlen, Nat.add_sub_cancel, List.take_left]

theorem message_eq_specMessage (recs : List TxtRecord) :
    List.intercalate [' ']
      (recs.map (fun i =>
        List.intercalate [' '] (i.map (fun j => (utf8Decode j).getD [])))) =
    specMessage recs := by
  unfold specMessage
  congr 1

theorem intercalate_replicate_nil (k : Nat) :
    List.intercalate [' '] (List.replicate k ([] : RStr)) = List.replicate (k - 1) ' ' := by
  induction k with
  | zero => simp [List.intercalate]
  | succ k ih =>
    cases k with
    | zero => simp [intercalate_singleton]
    | succ k2 =>
      have hrep : List.replicate (k2 + 1 + 1) ([] : RStr) =
          [] :: [] :: List.replicate k2 [] := by
        simp [List.replicate_succ]
      rw [hrep, intercalate_cons_cons]
      have hrep2 : ([] : RStr) :: List.replicate k2 [] = List.replicate (k2 + 1) [] := by
        simp [List.replicate_succ]
      rw [hrep2, ih]
      simp [List.replicate_succ]

theorem all_space_intercalate (L : List RStr) (h : ∀ p ∈ L, ∀ c ∈ p, c = ' ') :
    ∀ c ∈ List.intercalate [' '] L, c = ' ' := by
  induction L with
  | nil => simp [List.intercalate]
  | cons a L ih =>
    cases L with
    | nil =>
      rw [intercalate_singleton]
      exact h a (by simp)
    | cons b L2 =>
      rw [intercalate_cons_cons]
      intro c hc
      rcases List.mem_append.1 hc with hc1 | hc2
      · rcases List.mem_append.1 hc1 with hc3 | hc4
        · exact h a (by simp) c hc3
        · simpa using hc4
      · exact ih (fun p hp => h p (by simp [hp])) c hc2

theorem intercalate_space_eq_nil_iff (L : List RStr) :
    List.intercalate [' '] L = [] ↔ (L = [] ∨ ∃ p, L = [p] ∧ p = []) := by
  cases L with
  | nil => simp [List.intercalate]
  | cons a L =>
    cases L with
    | nil => simp [intercalate_singleton]
    | cons b L2 =>
      rw [intercalate_cons_cons]
      simp

theorem specChunk_of_empty_or_fail {c : List Nat}
    (h : c = ([] : List Nat) ∨ utf8Decode c = none) : specChunk c = [] := by
  rcases h with rfl | h
  · rfl
  · simp [specChunk, h]

set_option maxRecDepth 16000 in
theorem decLabel_length_le : ∀ n : Fin 256, (decLabel n.val).length ≤ 3 := by decide

theorem nibbleLabel_length : ∀ n : Fin 16, (nibbleLabel n).length = 1 := by decide

theorem nibble_sum (l : List (Fin 16)) :
    ((l.map nibbleLabel).map (fun lab => 1 + lab.length)).sum = 2 * l.length := by
  rw [List.map_map]
  induction l with
  | nil => simp
  | cons x l ih =>
    simp only [List.map_cons, List.sum_cons, List.length_cons, Function.comp_apply]
    rw [nibbleLabel_length x, ih]
    omega

theorem labelOk_iff (l : DnsLabel) : labelOk l = true ↔ (l ≠ [] ∧ l.length ≤ 63) := by
  simp only [labelOk, Bool.and_eq_true, decide_eq_true_iff]
  constructor
  · rintro ⟨h1, h2⟩
    refine ⟨?_, h2⟩
    intro hnil
    subst hnil
    simp at h1
  · rintro ⟨h1, h2⟩
    refine ⟨?_, h2⟩
    cases l with
    | nil => exact absurd rfl h1
    | cons a t => simp

/-- C1: for every IPv4 address a.b.c.d and zone Z, `check_ip` submits
the label sequence d, c, b, a followed by Z's labels: it takes the
address's canonical reverse-lookup name, strips exactly the last two
labels (the arpa suffix, shown via dropLast.dropLast), and appends the
zone's labels; for IPv6 it submits the 32 reversed nibble labels
followed by the zone; and the literal case 192.168.0.1 with zone
bl.test yields query name 1.0.168.192.bl.test. -/
theorem C1_check_ip_query_name :
    (∀ (ip : IpAddr) (z : BlockList),
        checkIpLabels ip z = (reverseLookupName ip).dropLast.dropLast ++ z.labels) ∧
    (∀ (a b c d : Fin 256) (z : BlockList),
        checkIpLabels (.v4 a b c d) z =
          [decLabel d.val, decLabel c.val, decLabel b.val, decLabel a.val] ++ z.labels) ∧
    (∀ (ns : List (Fin 16)) (z : BlockList),
        checkIpLabels (.v6 ns) z = ns.reverse.map nibbleLabel ++ z.labels) ∧
    Domain.new "bl.test".toList = .ok ⟨["bl".toList, "test".toList]⟩ ∧
    DnsName.from_labels (checkIpLabels (.v4 192 168 0 1) ⟨["bl".toList, "test".toList]⟩) =
      .ok ["1".toList, "0".toList, "168".toList, "192".toList, "bl".toList, "test".toList] ∧
    DnsName.display (checkIpLabels (.v4 192 168 0 1) ⟨["bl".toList, "test".toList]⟩) =
      "1.0.168.192.bl.test".toList := by
  refine ⟨?_, ?_, ?_, by decide, by decide, by decide⟩
  · intro ip z
    rw [checkIpLabels, numLabels, take_length_sub_two]
  · intro a b c d z
    exact checkIpLabels_v4 a b c d z
  · intro ns z
    exact checkIpLabels_v6 ns z

/-- C2: for every domain candidate D and zone Z (both produced by the
validated parser), `check_domain` submits D's labels followed by Z's
labels with no normalization, and the resulting name displays as the
literal dot-concatenation D.Z. -/
theorem C2_check_domain_concatenation (s t : RStr) (D Z : Domain)
    (hs : Domain.new s = .ok D) (ht : Domain.new t = .ok Z) :
    checkDomainLabels D Z = s.splitOn '.' ++ t.splitOn '.' ∧
    DnsName.display (checkDomainLabels D Z) = s ++ '.' :: t := by
  obtain ⟨hD, -, -⟩ := Domain.new_ok hs
  obtain ⟨hZ, -, -⟩ := Domain.new_ok ht
  have hlab : checkDomainLabels D Z = s.splitOn '.' ++ t.splitOn '.' := by
    simp [checkDomainLabels, hD, hZ]
  refine ⟨hlab, ?_⟩
  rw [hlab, DnsName.display,
    intercalate_append_of_ne_nil _ _ _ (splitOn_ne_nil_char '.' s) (splitOn_ne_nil_char '.' t),
    List.intercalate_splitOn, List.intercalate_splitOn]
  simp

/-- Witness for C2: candidate bad.example.com with zone dbl.test
yields query name bad.example.com.dbl.test. -/
theorem C2_witness :
    Domain.new "bad.example.com".toList =
      .ok ⟨["bad".toList, "example".toList, "com".toList]⟩ ∧
    Domain.new "dbl.test".toList = .ok ⟨["dbl".toList, "test".toList]⟩ ∧
    checkDomainLabels ⟨["bad".toList, "example".toList, "com".toList]⟩
        ⟨["dbl".toList, "test".toList]⟩ =
      "bad.example.com".toList.splitOn '.' ++ "dbl.test".toList.splitOn '.' ∧
    DnsName.display (checkDomainLabels ⟨["bad".toList, "example".toList, "com".toList]⟩
        ⟨["dbl".toList, "test".toList]⟩) = "bad.example.com.dbl.test".toList := by
  refine ⟨by decide, by decide, ?_, ?_⟩
  · exact (C2_check_domain_concatenation "bad.example.com".toList "dbl.test".toList
      ⟨["bad".toList, "example".toList, "com".toList]⟩ ⟨["dbl".toList, "test".toList]⟩
      (by decide) (by decide)).1
  · have h := (C2_check_domain_concatenation "bad.example.com".toList "dbl.test".toList
      ⟨["bad".toList, "example".toList, "com".toList]⟩ ⟨["dbl".toList, "test".toList]⟩
      (by decide) (by decide)).2
    rw [h]; decide

/-- C3: if the address-record lookup fails for any reason, `check`
returns exactly NotBlocked; no error is surfaced (the result type has
no error channel here) and the trace shows no TXT query was issued. -/
theorem C3_a_failure_not_blocked (r : Resolver) (n : NameLabels) (e : LookupError)
    (h : r.ipv4_lookup n = .error e) :
    DNSBL.check r n = (.NotBlocked, [.a n]) := by
  simp [DNSBL.check, h]

/-- Witness for C3 at a concrete failing resolver. -/
theorem C3_witness :
    errResolver.ipv4_lookup [['a']] = .error .nxdomain ∧
    DNSBL.check errResolver [['a']] = (.NotBlocked, [.a [['a']]]) :=
  ⟨rfl, C3_a_failure_not_blocked errResolver [['a']] .nxdomain rfl⟩

/-- C4: if the address-record lookup succeeds and the TXT lookup fails,
`check` returns Blocked with an absent message; the TXT failure is not
surfaced. -/
theorem C4_txt_failure_blocked_no_message (r : Resolver) (n : NameLabels)
    (addrs : List Ipv4Record) (e : LookupError)
    (h1 : r.ipv4_lookup n = .ok addrs) (h2 : r.txt_lookup n = .error e) :
    DNSBL.check r n = (.Blocked none, [.a n, .txt n]) := by
  simp [DNSBL.check, h1, h2]

/-- Witness for C4 at a concrete resolver. -/
theorem C4_witness :
    okErrResolver.ipv4_lookup [['a']] =
      .ok [((127 : Fin 256), (0 : Fin 256), (0 : Fin 256), (2 : Fin 256))] ∧
    okErrResolver.txt_lookup [['a']] = .error .serverFailure ∧
    DNSBL.check okErrResolver [['a']] = (.Blocked none, [.a [['a']], .txt [['a']]]) :=
  ⟨rfl, rfl, C4_txt_failure_blocked_no_message okErrResolver [['a']] _ .serverFailure rfl rfl⟩

/-- C5: when both lookups succeed the status is Blocked with a message
computed as the spec describes: each chunk UTF-8 decoded with the empty
string substituted on decode failure, space-joined within a record,
records space-joined, the result absent exactly when the joined string
is empty and Some of it otherwise. -/
theorem C5_message_computation (r : Resolver) (n : NameLabels)
    (addrs : List Ipv4Record) (recs : List TxtRecord)
    (h1 : r.ipv4_lookup n = .ok addrs) (h2 : r.txt_lookup n = .ok recs) :
    DNSBL.check r n =
      (.Blocked (if specMessage recs = [] then none else some (specMessage recs)),
       [.a n, .txt n]) := by
  simp only [DNSBL.check, h1, h2]
  rw [message_eq_specMessage]
  congr 1
  rcases hm : specMessage recs with _ | ⟨c, cs⟩
  · simp [Option.filter, hm]
  · simp [Option.filter, hm]

/-- Witness for C5 at a concrete resolver: records "hi" and "yo"+empty
produce the message "hi yo " (note the trailing space from the empty
chunk). -/
theorem C5_witness :
    okOkResolver.ipv4_lookup [['a']] =
      .ok [((127 : Fin 256), (0 : Fin 256), (0 : Fin 256), (2 : Fin 256))] ∧
    okOkResolver.txt_lookup [['a']] = .ok [[[104, 105]], [[121, 111], []]] ∧
    DNSBL.check okOkResolver [['a']] =
      (.Blocked (if specMessage [[[104, 105]], [[121, 111], []]] = [] then none
                 else some (specMessage [[[104, 105]], [[121, 111], []]])),
       [.a [['a']], .txt [['a']]]) ∧
    specMessage [[[104, 105]], [[121, 111], []]] = "hi yo ".toList :=
  ⟨rfl, rfl,
   C5_message_computation okOkResolver [['a']] _ _ rfl rfl,
   by decide⟩

/-- Counterexample to C6 as stated: with two TXT records whose only
chunks are empty or undecodable, the joined message is the single
space " ", which is not empty, so the code returns Blocked with
Some " " (a whitespace-only string), not an absent message. -/
theorem C6_counterexample :
    (∀ rec ∈ [[[]], [[0xFF]]], ∀ c ∈ rec, c = ([] : List Nat) ∨ utf8Decode c = none) ∧
    DNSBL.check twoEmptyResolver [['a']] =
      (.Blocked (some [' ']), [.a [['a']], .txt [['a']]]) ∧
    some [' '] ≠ (none : Option RStr) := by
  refine ⟨by decide, by decide, by decide⟩

/-- C6 as amended: when both lookups succeed and every chunk is empty
or fails UTF-8 decoding, the message is absent exactly when at most one
chunk in at most one record was returned; otherwise it is Some of a
nonempty whitespace-only string (the spaces joining the empty pieces). -/
theorem C6_amended_whitespace_message (r : Resolver) (n : NameLabels)
    (addrs : List Ipv4Record) (recs : List TxtRecord)
    (h1 : r.ipv4_lookup n = .ok addrs) (h2 : r.txt_lookup n = .ok recs)
    (hchunks : ∀ rec ∈ recs, ∀ c ∈ rec, c = ([] : List Nat) ∨ utf8Decode c = none) :
    ∃ m, DNSBL.check r n = (.Blocked m, [.a n, .txt n]) ∧
      (m = none ↔ (recs = [] ∨ ∃ rec, recs = [rec] ∧ rec.length ≤ 1)) ∧
      (∀ s, m = some s → s ≠ [] ∧ ∀ ch ∈ s, ch = ' ') := by
  have hrec : ∀ rec ∈ recs, specRecordMessage rec = List.replicate (rec.length - 1) ' ' := by
    intro rec hr
    have hmap : rec.map specChunk = List.replicate (rec.map specChunk).length [] := by
      apply List.eq_replicate_of_mem
      intro b hb
      rcases List.mem_map.1 hb with ⟨c, hc, rfl⟩
      exact specChunk_of_empty_or_fail (hchunks rec hr c hc)
    rw [specRecordMessage, hmap, List.length_map, intercalate_replicate_nil]
  have hpieces : recs.map specRecordMessage =
      recs.map (fun rec => List.replicate (rec.length - 1) ' ') :=
    List.map_congr_left hrec
  have hspace : ∀ ch ∈ specMessage recs, ch = ' ' := by
    rw [specMessage, hpieces]
    apply all_space_intercalate
    intro p hp
    rcases List.mem_map.1 hp with ⟨rec, hrec2, rfl⟩
    intro c hc
    exact (List.eq_of_mem_replicate hc)
  have hnil : specMessage recs = [] ↔
      (recs = [] ∨ ∃ rec, recs = [rec] ∧ rec.length ≤ 1) := by
    rw [specMessage, hpieces, intercalate_space_eq_nil_iff]
    constructor
    · rintro (hmap | ⟨p, hp1, hp2⟩)
      · left; exact List.map_eq_nil_iff.1 hmap
      · right
        rcases recs with _ | ⟨rec, recs2⟩
        · simp at hp1
        · rcases recs2 with _ | ⟨rec2, recs3⟩
          · refine ⟨rec, rfl, ?_⟩
            simp at hp1
            rw [← hp1] at hp2
            have h0 := (List.replicate_eq_nil_iff ' ').1 hp2
            omega
          · simp at hp1
    · rintro (rfl | ⟨rec, rfl, hlen⟩)
      · left; rfl
      · right
        refine ⟨List.replicate (rec.length - 1) ' ', by simp, ?_⟩
        rw [List.replicate_eq_nil_iff ' ']
        omega
  refine ⟨if specMessage recs = [] then none else some (specMessage recs),
    C5_message_computation r n addrs recs h1 h2, ?_, ?_⟩
  · constructor
    · intro hm
      by_cases hsm : specMessage recs = []
      · exact hnil.1 hsm
      · simp [hsm] at hm
    · intro hstruct
      simp [hnil.2 hstruct]
  · intro s hs
    by_cases hsm : specMessage recs = []
    · simp [hsm] at hs
    · simp [hsm] at hs
      subst hs
      exact ⟨hsm, hspace⟩

/-- Witness for the amended C6 at the concrete resolver of the
counterexample. -/
theorem C6_amended_witness :
    twoEmptyResolver.ipv4_lookup [['a']] =
      .ok [((127 : Fin 256), (0 : Fin 256), (0 : Fin 256), (2 : Fin 256))] ∧
    twoEmptyResolver.txt_lookup [['a']] = .ok [[[]], [[0xFF]]] ∧
    (∀ rec ∈ [[[]], [[0xFF]]], ∀ c ∈ rec, c = ([] : List Nat) ∨ utf8Decode c = none) ∧
    (∃ m, DNSBL.check twoEmptyResolver [['a']] = (.Blocked m, [.a [['a']], .txt [['a']]]) ∧
      (m = none ↔ (([[[]], [[0xFF]]] : List TxtRecord) = [] ∨
        ∃ rec, ([[[]], [[0xFF]]] : List TxtRecord) = [rec] ∧ rec.length ≤ 1)) ∧
      (∀ s, m = some s → s ≠ [] ∧ ∀ ch ∈ s, ch = ' ')) :=
  ⟨rfl, rfl, by decide,
   C6_amended_whitespace_message twoEmptyResolver [['a']] _ _ rfl rfl (by decide)⟩

set_option maxRecDepth 8000 in
/-- C7: at two individually valid 255-octet names, the concatenation
built by `check_domain` exceeds the 255-octet limit, `Name::from_labels`
fails with the name-too-long error, and `check_domain` hits the
`expect("always valid")` unwrap (the `.error` outcome of this model),
aborting instead of reporting the error to the caller. -/
theorem C7_expect_panic_on_long_concatenation :
    Domain.new maxNameStr = .ok maxDomain ∧
    wireLen maxDomain.labels = 255 ∧
    DnsName.from_labels (checkDomainLabels maxDomain maxDomain) = .error .nameTooLong ∧
    DNSBL.check_domain errResolver maxDomain maxDomain = .error .nameTooLong := by
  refine ⟨by decide, by decide, by decide, by decide⟩

set_option maxRecDepth 8000 in
/-- Counterexample to C8 as stated: with a valid zone of maximal
encoded length (255 octets), the reverse-name construction for
192.168.0.1 exceeds the name length limit, so the construction is not
infallible and the `expect("always valid")` branch is taken. -/
theorem C8_counterexample_max_zone :
    Domain.new maxNameStr = .ok maxDomain ∧
    DNSBL.check_ip errResolver maxDomain (.v4 192 168 0 1) = .error .nameTooLong := by
  refine ⟨by decide, by decide⟩

/-- C8 as amended: a reverse-lookup name always has at least two labels
(so the strip-two-labels step never underflows), and the construction is
infallible whenever the combined name stays within the 255-octet limit:
for every IPv4 address with a zone of encoded length at most 239 octets,
and every IPv6 nibble sequence (at most 32 nibbles) with a zone of
encoded length at most 191 octets. -/
theorem C8_amended_within_limits :
    (∀ ip, 2 ≤ numLabels (reverseLookupName ip)) ∧
    (∀ (a b c d : Fin 256) (z : BlockList), wireLen z.labels ≤ 239 →
        DnsName.from_labels (checkIpLabels (.v4 a b c d) z) =
          .ok (checkIpLabels (.v4 a b c d) z)) ∧
    (∀ (ns : List (Fin 16)) (z : BlockList), ns.length ≤ 32 → wireLen z.labels ≤ 191 →
        DnsName.from_labels (checkIpLabels (.v6 ns) z) =
          .ok (checkIpLabels (.v6 ns) z)) := by
  refine ⟨?_, ?_, ?_⟩
  · intro ip
    cases ip with
    | v4 a b c d => simp [reverseLookupName, numLabels]
    | v6 ns => simp [reverseLookupName, numLabels]
  · intro a b c d z hz
    rw [DnsName.from_labels, if_pos]
    rw [checkIpLabels_v4]
    have ha := decLabel_length_le a
    have hb := decLabel_length_le b
    have hc := decLabel_length_le c
    have hd := decLabel_length_le d
    simp only [wireLen, List.map_append, List.sum_append, List.map_cons, List.sum_cons,
      List.map_nil, List.sum_nil] at hz ⊢
    omega
  · intro ns z hns hz
    rw [DnsName.from_labels, if_pos]
    rw [checkIpLabels_v6]
    have hsum := nibble_sum ns.reverse
    simp only [List.length_reverse] at hsum
    simp only [wireLen, List.map_append, List.sum_append] at hz ⊢
    rw [hsum]
    omega

/-- Witness for the amended C8 at the zone bl.test (IPv4 192.168.0.1
and an all-zero 32-nibble IPv6 address). -/
theorem C8_witness :
    wireLen (Domain.mk ["bl".toList, "test".toList]).labels ≤ 239 ∧
    DnsName.from_labels
        (checkIpLabels (.v4 192 168 0 1) ⟨["bl".toList, "test".toList]⟩) =
      .ok (checkIpLabels (.v4 192 168 0 1) ⟨["bl".toList, "test".toList]⟩) ∧
    (List.replicate 32 (0 : Fin 16)).length ≤ 32 ∧
    wireLen (Domain.mk ["bl".toList, "test".toList]).labels ≤ 191 ∧
    DnsName.from_labels
        (checkIpLabels (.v6 (List.replicate 32 0)) ⟨["bl".toList, "test".toList]⟩) =
      .ok (checkIpLabels (.v6 (List.replicate 32 0)) ⟨["bl".toList, "test".toList]⟩) :=
  ⟨by decide,
   C8_amended_within_limits.2.1 192 168 0 1 ⟨["bl".toList, "test".toList]⟩ (by decide),
   by decide, by decide,
   C8_amended_within_limits.2.2 (List.replicate 32 0) ⟨["bl".toList, "test".toList]⟩
     (by decide) (by decide)⟩

/-- C9: name construction succeeds (returning exactly the dot-split
labels) precisely when every label is nonempty and at most 63 octets
and the encoded length is at most 255 octets; every other input fails
with the invalid-name error, and no other outcome exists. -/
theorem C9_from_utf8_validation (s : RStr) :
    (DnsName.from_utf8 s = .ok (s.splitOn '.') ∨
      DnsName.from_utf8 s = .error .invalidName) ∧
    (DnsName.from_utf8 s = .ok (s.splitOn '.') ↔
      ((∀ l ∈ s.splitOn '.', l ≠ [] ∧ l.length ≤ 63) ∧ wireLen (s.splitOn '.') ≤ 255)) ∧
    (DnsName.from_utf8 s = .error .invalidName ↔
      ¬((∀ l ∈ s.splitOn '.', l ≠ [] ∧ l.length ≤ 63) ∧ wireLen (s.splitOn '.') ≤ 255)) := by
  simp only [DnsName.from_utf8]
  by_cases hc : ((s.splitOn '.').all labelOk && decide (wireLen (s.splitOn '.') ≤ 255)) = true
  · rw [if_pos hc]
    simp only [Bool.and_eq_true, List.all_eq_true, decide_eq_true_iff] at hc
    obtain ⟨h1, h2⟩ := hc
    have hwf : (∀ l ∈ s.splitOn '.', l ≠ [] ∧ l.length ≤ 63) ∧
        wireLen (s.splitOn '.') ≤ 255 :=
      ⟨fun l hl => (labelOk_iff l).1 (h1 l hl), h2⟩
    exact ⟨Or.inl rfl, ⟨fun _ => hwf, fun _ => rfl⟩,
      ⟨fun h => by simp at h, fun h => absurd hwf h⟩⟩
  · rw [if_neg hc]
    simp only [Bool.and_eq_true, List.all_eq_true, decide_eq_true_iff] at hc
    have hnwf : ¬((∀ l ∈ s.splitOn '.', l ≠ [] ∧ l.length ≤ 63) ∧
        wireLen (s.splitOn '.') ≤ 255) := by
      intro hwf
      obtain ⟨ha, hb⟩ := hwf
      exact hc ⟨fun l hl => (labelOk_iff l).2 (ha l hl), hb⟩
    exact ⟨Or.inr rfl, ⟨fun h => by simp at h, fun h => absurd h hnwf⟩,
      ⟨fun _ => hnwf, fun _ => rfl⟩⟩

/-- C10: serializing a Domain (rendering it to its dot-separated text)
and deserializing the result (through the validated parser) returns Ok
of a Domain equal to the original, for every Domain produced by
`Domain::new`. -/
theorem C10_serde_round_trip (s : RStr) (d : Domain)
    (h : Domain.new s = .ok d) :
    Domain.deserialize (Domain.serialize d) = .ok d := by
  obtain ⟨hd, h2, h3⟩ := Domain.new_ok h
  have hdisp : Domain.serialize d = s := by
    rw [Domain.serialize, Domain.display, hd, DnsName.display, List.intercalate_splitOn]
  rw [hdisp, Domain.deserialize, h]

/-- Witness for C10 at the concrete domain example.com. -/
theorem C10_witness :
    Domain.new "example.com".toList = .ok ⟨["example".toList, "com".toList]⟩ ∧
    Domain.deserialize (Domain.serialize ⟨["example".toList, "com".toList]⟩) =
      .ok ⟨["example".toList, "com".toList]⟩ :=
  ⟨by decide, C10_serde_round_trip "example.com".toList
    ⟨["example".toList, "com".toList]⟩ (by decide)⟩
